import Mathlib

/-!
Shallow embedding of the uasyncio core scheduler (`core.py`): the `EventLoop`
class with its two timed queues (NQ `q`, LPQ `lpq`), the high-priority slot
table (`hpq`), the selection loop and directive dispatch of `run_forever`,
and the public scheduling operations.  Machine time follows the MicroPython
`utime` ticks model (wraparound at `TICKS_PERIOD`); "seconds" values are
embedded as rationals and `int()` as truncation toward zero.  Generators are
embedded as deterministic resumption traces (`List Step`): each resumption
either raises or yields one concrete directive value; an exhausted trace
raises `StopIteration`.
-/

namespace UAsyncio

/-- MicroPython tick period for `utime.ticks_ms` arithmetic (2^30). -/
def TICKS_PERIOD : Int := 1073741824

/-- `utime.ticks_add(t, d)`: modular addition of ticks. -/
def ticks_add (t d : Int) : Int := (t + d) % TICKS_PERIOD

/-- `utime.ticks_diff(a, b)`: signed shortest distance between two tick
values, in `[-TICKS_PERIOD/2, TICKS_PERIOD/2)`. -/
def ticks_diff (a b : Int) : Int :=
  (a - b + TICKS_PERIOD / 2) % TICKS_PERIOD - TICKS_PERIOD / 2

/-- Python `int(q)` on a (rational-embedded) number: truncation toward zero,
`q.num.tdiv q.den`. -/
def pyInt (q : ℚ) : Int := q.num.tdiv q.den

/-- One resumption step of a generator: it either raises an exception other
than `StopIteration` (`raises`), or yields one value.  The yield variants
correspond, one per concrete class/type accepted by `run_forever`'s
dispatch: `Sleep`, `SleepMs`, `After`, `AfterMs`, `When` (with a callable,
identified by a nonzero id, or a non-callable argument), the four `IO*`
syscalls, `StopLoop`, a nested generator, a bare `int`, `None`, an
unrecognised `SysCall1` subclass, and any other unsupported value. -/
inductive Step where
  | raises : Step
  | sleep (secs : ℚ) : Step
  | sleepMs (ms : Int) : Step
  | after (secs : ℚ) : Step
  | afterMs (ms : Int) : Step
  | whenP (pid : Nat) : Step
  | whenBad : Step
  | ioRead (h : Int) : Step
  | ioWrite (h : Int) : Step
  | ioReadDone (h : Int) : Step
  | ioWriteDone (h : Int) : Step
  | stopLoop (v : Int) : Step
  | nestedGen (g : List Step) : Step
  | intV (k : Int) : Step
  | noneV : Step
  | unknownSys : Step
  | unknownVal : Step

/-- Argument tuples carried alongside callbacks (opaque to the loop). -/
abbrev Args := List Int

/-- A queue payload: a plain callable (`callable(cb)` is true), the integer
`0` sentinel stored by `allocate_hpq`, or a generator with its remaining
resumption trace. -/
inductive Payload where
  | fn (fid : Nat) : Payload
  | zero : Payload
  | coro (steps : List Step) : Payload

/-- Python-exception outcomes the embedded loop can surface. -/
inductive Err where
  | queueFull : Err
  | typeError : Err
  | attrError : Err
  | indexError : Err
  | taskError : Err
  | badWhen : Err
  | unknownSyscall : Err
  | unsupportedYield : Err
deriving DecidableEq

/-- One `utimeq` entry: scheduled tick, callback, args. -/
structure TQEntry where
  t : Int
  cb : Payload
  args : Args

/-- Modelled from the spec: `utimeq` is an external C module absent from the
repository; §4.2 specifies it as a fixed-capacity min-heap keyed by
wraparound-aware time with FIFO ties, whose `push` fails with `QueueFull`
when full. -/
structure Utimeq where
  cap : Nat
  entries : List TQEntry

/-- Modelled from the spec: `utimeq.push(t, cb, args)` inserts with key `t`
and fails with `QueueFull` at capacity. -/
def Utimeq.push (q : Utimeq) (t : Int) (cb : Payload) (args : Args) :
    Except Err Utimeq :=
  if q.cap ≤ q.entries.length then .error .queueFull
  else .ok { q with entries := q.entries ++ [⟨t, cb, args⟩] }

/-- Remove the earliest entry under wraparound-aware comparison, keeping the
first occurrence among ties (FIFO). -/
def popMinList : List TQEntry → Option (TQEntry × List TQEntry)
  | [] => none
  | e :: rest =>
    match popMinList rest with
    | none => some (e, [])
    | some (m, rest') =>
      if ticks_diff m.t e.t < 0 then some (m, e :: rest') else some (e, rest)

/-- Modelled from the spec: `utimeq.pop(buf)` removes the minimum. -/
def Utimeq.pop (q : Utimeq) : Option (TQEntry × Utimeq) :=
  (popMinList q.entries).map fun p => (p.1, { q with entries := p.2 })

/-- Modelled from the spec: `utimeq.peektime()`, the smallest key
(`none` when empty, where CPython-level code would raise `IndexError`). -/
def Utimeq.peektime (q : Utimeq) : Option Int :=
  (popMinList q.entries).map fun p => p.1.t

/-- One HPQ slot `[predicate, callback, args]`; predicate `0` (Python-falsy)
marks the slot empty, a callable there is identified by a nonzero id. -/
structure HpSlot where
  pred : Nat
  cb : Payload
  args : Args

/-- The value of `self.hpq` when not `None`.  `table slots` is a list whose
items are 3-element slot lists, the shape produced by `allocate_hpq` and by
`_schedule_hp`'s scan-or-append branch.  `flat func cb args extra` is the
shape produced by `_schedule_hp`'s `hpq is None` branch, which assigns
`self.hpq = [func, callback, args]`: a flat 3-item list whose first item is
the bare function (plus any slot lists later appended by `allocate_hpq`). -/
inductive HpState where
  | flat (func : Nat) (cb : Payload) (args : Args) (extra : List HpSlot) : HpState
  | table (slots : List HpSlot) : HpState

/-- The `EventLoop` instance state, plus the ambient monotonic clock `now`
(the value `time.ticks_ms()` would return). -/
structure LoopState where
  q : Utimeq
  lpq : Utimeq
  max_overdue : Int
  hpq : Option HpState
  now : Int

/-- `EventLoop.__init__(len=42)`: decode `lpqlen = len >> 16`,
`qlen = len & 0xffff`, and create the two queues. -/
def initLoop (len : Nat) (now0 : Int) : LoopState :=
  { q := { cap := len &&& 0xffff, entries := [] }
    lpq := { cap := len >>> 16, entries := [] }
    max_overdue := 0
    hpq := none
    now := now0 }

/-- `get_event_loop(qlen=42, lpqlen=42)`: packs both capacities into one
word, `qlen + (lpqlen << 16)`, and constructs the loop. -/
def get_event_loop (qlen lpqlen : Nat) (now0 : Int) : LoopState :=
  initLoop (qlen + (lpqlen <<< 16)) now0

/-- `EventLoop.call_at_(time, callback, args=())`: push onto NQ. -/
def call_at_ (s : LoopState) (t : Int) (cb : Payload) (args : Args) :
    Except Err LoopState :=
  (s.q.push t cb args).map fun q' => { s with q := q' }

/-- `EventLoop.call_later_ms_(delay, callback, args=())`. -/
def call_later_ms_ (s : LoopState) (delay : Int) (cb : Payload) (args : Args) :
    Except Err LoopState :=
  call_at_ s (ticks_add s.now delay) cb args

/-- `EventLoop.call_soon(callback, *args)`: push onto NQ at the current
time. -/
def call_soon (s : LoopState) (cb : Payload) (args : Args) :
    Except Err LoopState :=
  call_at_ s s.now cb args

/-- `EventLoop.call_later(delay, callback, *args)`: seconds are converted by
`int(delay * 1000)`. -/
def call_later (s : LoopState) (delay : ℚ) (cb : Payload) (args : Args) :
    Except Err LoopState :=
  call_at_ s (ticks_add s.now (pyInt (delay * 1000))) cb args

/-- `EventLoop.create_task(coro)`: `call_later_ms_(0, coro)`. -/
def create_task (s : LoopState) (cb : Payload) : Except Err LoopState :=
  call_later_ms_ s 0 cb []

/-- `EventLoop.call_after_ms_(delay, callback, args=())`: push onto LPQ. -/
def call_after_ms_ (s : LoopState) (delay : Int) (cb : Payload) (args : Args) :
    Except Err LoopState :=
  (s.lpq.push (ticks_add s.now delay) cb args).map fun l' => { s with lpq := l' }

/-- `EventLoop.call_after(delay, callback, *args)`: low priority, seconds
converted by `int(delay * 1000)`. -/
def call_after (s : LoopState) (delay : ℚ) (cb : Payload) (args : Args) :
    Except Err LoopState :=
  (s.lpq.push (ticks_add s.now (pyInt (delay * 1000))) cb args).map
    fun l' => { s with lpq := l' }

/-- The slot scan of `_schedule_hp` over a well-formed table: overwrite the
first empty slot (`if not entry[0]`) in place, else (`for`-`else`) append a
new slot. -/
def assignSlot : List HpSlot → Nat → Payload → Args → List HpSlot
  | [], f, c, a => [⟨f, c, a⟩]
  | e :: rest, f, c, a =>
    if e.pred = 0 then ⟨f, c, a⟩ :: rest
    else e :: assignSlot rest f c a

/-- `EventLoop._schedule_hp(func, callback, args=())`.  When `hpq is None`
the source assigns `self.hpq = [func, callback, args]` — a flat 3-item list,
not a table holding one slot.  Otherwise it iterates the existing list: on a
`flat` list the first iterated item is the bare function, so `entry[0]`
raises `TypeError`; on a `table` it runs the `assignSlot` scan. -/
def _schedule_hp (hpq : Option HpState) (func : Nat) (cb : Payload)
    (args : Args) : Except Err (Option HpState) :=
  match hpq with
  | none => .ok (some (.flat func cb args []))
  | some (.flat _ _ _ _) => .error .typeError
  | some (.table slots) => .ok (some (.table (assignSlot slots func cb args)))

/-- `EventLoop.allocate_hpq(size)`: create the table if absent, then append
`[0, 0, 0]` slots up to `size` items (`range` of a negative count is empty;
a `flat` list already has 3 items before its appended slots). -/
def allocate_hpq (hpq : Option HpState) (size : Nat) : Option HpState :=
  match hpq with
  | none => some (.table (List.replicate size ⟨0, .zero, []⟩))
  | some (.table slots) =>
      some (.table (slots ++ List.replicate (size - slots.length) ⟨0, .zero, []⟩))
  | some (.flat f c a extra) =>
      some (.flat f c a (extra ++ List.replicate (size - (3 + extra.length)) ⟨0, .zero, []⟩))

/-- The reused `cur_task` 3-slot buffer after a selection wrote it:
`(t, cb, args)` (the HPQ branch stores `t = 0`). -/
structure CurTask where
  t : Int
  cb : Payload
  args : Args

/-- Outcome of one iteration of the inner `while 1` selection loop. -/
inductive SelRes where
  | picked (cur : CurTask) (s : LoopState) : SelRes
  | waited (s : LoopState) : SelRes
  | fatal (e : Err) (s : LoopState) : SelRes

/-- The HPQ scan of `run_forever` over a well-formed slot table: the first
slot with `entry[0] and entry[0]()` wins; it is cleared in place
(`entry[0] = 0`) and its payload and args are copied out.  `env` gives the
truth value each predicate call returns at this tick. -/
def hpScan (env : Nat → Bool) : List HpSlot → Option (List HpSlot × Payload × Args)
  | [] => none
  | e :: rest =>
    if e.pred ≠ 0 ∧ env e.pred = true then
      some (⟨0, e.cb, e.args⟩ :: rest, e.cb, e.args)
    else
      (hpScan env rest).map fun r => (e :: r.1, r.2.1, r.2.2)

/-- The "schedule most overdue LP coro" check of `run_forever`: when
`self.lpq and self._max_overdue_ms > 0` and the LPQ head is more than
`max_overdue_ms` overdue, pop it. -/
def lpOverduePick (s : LoopState) : Option SelRes :=
  if 0 < s.max_overdue then
    match s.lpq.peektime, s.lpq.pop with
    | some t, some (e, l') =>
      if s.max_overdue < -ticks_diff t s.now then
        some (.picked ⟨e.t, e.cb, e.args⟩ { s with lpq := l' })
      else none
    | _, _ => none
  else none

/-- The queue part of one selection iteration (`run_forever` lines after the
HPQ scan): LPQ-overdue override, then NQ due, then LPQ due, else
`wait(delay)` with `delay = min(delay, lpdelay)`, which advances the clock
(the base-class `wait` is `time.sleep_ms`). -/
def selectQs (s : LoopState) : SelRes :=
  let tnow := s.now
  match lpOverduePick s with
  | some r => r
  | none =>
    match s.q.peektime with
    | none => .fatal .indexError s
    | some t =>
      let delay := ticks_diff t tnow
      if delay ≤ 0 then
        match s.q.pop with
        | some (e, q') => .picked ⟨e.t, e.cb, e.args⟩ { s with q := q' }
        | none => .fatal .indexError s
      else
        match s.lpq.peektime with
        | some tl =>
          let lpdelay := ticks_diff tl tnow
          if lpdelay ≤ 0 then
            match s.lpq.pop with
            | some (e, l') => .picked ⟨e.t, e.cb, e.args⟩ { s with lpq := l' }
            | none => .fatal .indexError s
          else
            .waited { s with now := ticks_add s.now (min delay lpdelay) }
        | none => .waited { s with now := ticks_add s.now delay }

/-- One iteration of the inner `while 1` selection loop: HPQ scan first
(iterating a `flat` list subscripts the stored bare function, raising
`TypeError`), then the queue checks of `selectQs`. -/
def selectStep (env : Nat → Bool) (s : LoopState) : SelRes :=
  match s.hpq with
  | some (.flat _ _ _ _) => .fatal .typeError s
  | some (.table slots) =>
    match hpScan env slots with
    | some (slots', cb, a) => .picked ⟨0, cb, a⟩ { s with hpq := some (.table slots') }
    | none => selectQs s
  | none => selectQs s

/-- Result of running the inner selection loop to a `break`. -/
inductive SelLoopRes where
  | picked (cur : CurTask) (s : LoopState) : SelLoopRes
  | fatal (e : Err) (s : LoopState) : SelLoopRes
  | noFuel (s : LoopState) : SelLoopRes

/-- The inner `while 1` selection loop, fuelled. -/
def selectLoop (env : Nat → Bool) : Nat → LoopState → SelLoopRes
  | 0, s => .noFuel s
  | n + 1, s =>
    match selectStep env s with
    | .picked c s' => .picked c s'
    | .fatal e s' => .fatal e s'
    | .waited s' => selectLoop env n s'

/-- Outcome of one iteration of `run_forever`'s outer `while True` body. -/
inductive StepOut where
  | cont (s : LoopState) : StepOut
  | ret (v : Int) (s : LoopState) : StepOut
  | fatal (e : Err) (s : LoopState) : StepOut
  | noFuel (s : LoopState) : StepOut

/-- The post-resume re-enqueue policy when no `When` predicate was produced:
`call_later_ms_(delay, cb, args)` if `priority` else
`call_after_ms_(delay, cb, args)`; a `QueueFull` propagates. -/
def reenqueue (s : LoopState) (priority : Bool) (delay : Int) (cb : Payload)
    (args : Args) : StepOut :=
  match (if priority then call_later_ms_ s delay cb args
         else call_after_ms_ s delay cb args) with
  | .ok s' => .cont s'
  | .error e => .fatal e s

/-- Dispatch of a selected entry: plain callables run to completion and are
not re-enqueued; a generator is resumed and its yield interpreted by the
`isinstance` cascade of `run_forever`.  Only `StopIteration` is caught
(`continue`); every other exception — including the `assert False` arms and
the `AttributeError` from the I/O registration calls, which the base
`EventLoop` class does not define — propagates. -/
def dispatch (cur : CurTask) (s : LoopState) : StepOut :=
  match cur.cb with
  | .fn _ => .cont s
  | .zero => .fatal .typeError s
  | .coro steps =>
    match steps with
    | [] => .cont s
    | .raises :: _ => .fatal .taskError s
    | .sleep secs :: rest => reenqueue s true (pyInt (secs * 1000)) (.coro rest) cur.args
    | .sleepMs ms :: rest => reenqueue s true ms (.coro rest) cur.args
    | .after secs :: rest => reenqueue s false (pyInt (secs * 1000)) (.coro rest) cur.args
    | .afterMs ms :: rest => reenqueue s false ms (.coro rest) cur.args
    | .whenP pid :: rest =>
      match _schedule_hp s.hpq pid (.coro rest) cur.args with
      | .ok h' => .cont { s with hpq := h' }
      | .error e => .fatal e s
    | .whenBad :: _ => .fatal .badWhen s
    | .ioRead _ :: _ => .fatal .attrError s
    | .ioWrite _ :: _ => .fatal .attrError s
    | .ioReadDone _ :: _ => .fatal .attrError s
    | .ioWriteDone _ :: _ => .fatal .attrError s
    | .stopLoop v :: _ => .ret v s
    | .nestedGen g :: rest =>
      match call_soon s (.coro g) [] with
      | .error e => .fatal e s
      | .ok s' => reenqueue s' true 0 (.coro rest) cur.args
    | .intV k :: rest => reenqueue s true k (.coro rest) cur.args
    | .noneV :: rest => reenqueue s true 0 (.coro rest) cur.args
    | .unknownSys :: _ => .fatal .unknownSyscall s
    | .unknownVal :: _ => .fatal .unsupportedYield s

/-- One iteration of `run_forever`'s outer `while True`: with NQ non-empty,
run the selection loop and dispatch its pick; with NQ empty, pop a due LPQ
head if any, else `wait(-1)` and `continue` (the base-class wait is a sleep;
with nothing to wake it the loop just spins, which the fuel bounds). -/
def loopBody (env : Nat → Bool) (selFuel : Nat) (s : LoopState) : StepOut :=
  if s.q.entries.isEmpty = false then
    match selectLoop env selFuel s with
    | .picked cur s' => dispatch cur s'
    | .fatal e s' => .fatal e s'
    | .noFuel s' => .noFuel s'
  else
    match s.lpq.peektime with
    | some t =>
      if ticks_diff t s.now ≤ 0 then
        match s.lpq.pop with
        | some (e, l') => dispatch ⟨e.t, e.cb, e.args⟩ { s with lpq := l' }
        | none => .fatal .indexError s
      else .cont s
    | none => .cont s

/-- Result of `run_forever`. -/
inductive RunResult where
  | stopped (v : Int) (s : LoopState) : RunResult
  | err (e : Err) (s : LoopState) : RunResult
  | outOfFuel (s : LoopState) : RunResult

/-- `EventLoop.run_forever()`, fuelled: iterate `loopBody` until a task
yields `StopLoop(v)` (returning `v`) or an exception propagates. -/
def run_forever (env : Nat → Bool) : Nat → LoopState → RunResult
  | 0, s => .outOfFuel s
  | n + 1, s =>
    match loopBody env (n + 1) s with
    | .cont s' => run_forever env n s'
    | .ret v s' => .stopped v s'
    | .fatal e s' => .err e s'
    | .noFuel s' => .outOfFuel s'

/-- Result of `run_until_complete`: the Python return value (`none` embeds
Python `None`) or a propagated exception. -/
inductive RucResult where
  | returned (r : Option Int) (s : LoopState) : RucResult
  | err (e : Err) (s : LoopState) : RucResult
  | outOfFuel (s : LoopState) : RucResult

/-- `EventLoop.run_until_complete(coro)`: wrap `coro` so that after it is
exhausted a `StopLoop(0)` is yielded (`yield from coro; yield StopLoop(0)`),
`call_soon` the wrapper, then `run_forever()`.  The source has no `return`
statement, so the function returns `None` whatever `run_forever` returned. -/
def run_until_complete (env : Nat → Bool) (fuel : Nat) (s : LoopState)
    (coro : List Step) : RucResult :=
  match call_soon s (.coro (coro ++ [.stopLoop 0])) [] with
  | .error e => .err e s
  | .ok s' =>
    match run_forever env fuel s' with
    | .stopped _ s'' => .returned none s''
    | .err e s'' => .err e s''
    | .outOfFuel s'' => .outOfFuel s''

/-- The value a finished `run_forever` returned, if it stopped. -/
def RunResult.stopVal : RunResult → Option Int
  | .stopped v _ => some v
  | _ => none

/-- The clock value at which `run_forever` stopped, if it stopped. -/
def RunResult.stoppedNow : RunResult → Option Int
  | .stopped _ s => some s.now
  | _ => none

/-- The exception `run_forever` surfaced, if any. -/
def RunResult.errVal : RunResult → Option Err
  | .err e _ => some e
  | _ => none

/-- The Python return value of `run_until_complete`, if it returned. -/
def RucResult.retVal : RucResult → Option (Option Int)
  | .returned r _ => some r
  | _ => none

/-- The `fid` of the picked payload when selection picked a plain callable. -/
def SelRes.pickedFnId : SelRes → Option Nat
  | .picked cur _ =>
    match cur.cb with
    | .fn fid => some fid
    | _ => none
  | _ => none

/-- The exception a selection iteration raised, if any. -/
def SelRes.fatalErr : SelRes → Option Err
  | .fatal e _ => some e
  | _ => none

/-- The callable id of a payload, when it is a plain callable. -/
def Payload.fnId : Payload → Option Nat
  | .fn fid => some fid
  | _ => none

/-- A predicate environment in which no `When` predicate is truthy. -/
def envFalse : Nat → Bool := fun _ => false

/-- A predicate environment in which exactly predicate `1` is truthy. -/
def envOne : Nat → Bool := fun p => p == 1

/-- A loop as constructed by `EventLoop()` with the default `len = 42`,
with the clock at `0`. -/
def loop0 : LoopState := initLoop 42 0

/-- The task of spec scenario 1: yields `SleepMs(10)`, then `SleepMs(20)`,
then `StopLoop(42)`. -/
def chainCoro : List Step := [.sleepMs 10, .sleepMs 20, .stopLoop 42]

/- Helper lemmas shared by the claim theorems. -/

/-- If `pop` returns an entry, `peektime` returns that entry's key. -/
theorem Utimeq.peektime_of_pop {q : Utimeq} {e : TQEntry} {q' : Utimeq}
    (h : q.pop = some (e, q')) : q.peektime = some e.t := by
  cases hp : popMinList q.entries with
  | none => simp [Utimeq.pop, hp] at h
  | some p =>
    simp [Utimeq.pop, hp] at h
    simp [Utimeq.peektime, hp, h.1]

/-- Python `int()` agrees with the floor on non-negative numbers. -/
theorem pyInt_eq_floor (q : ℚ) (h : 0 ≤ q) : pyInt q = ⌊q⌋ := by
  rw [pyInt, Rat.floor_def]
  exact Int.tdiv_eq_ediv (Rat.num_nonneg.mpr h) (Int.natCast_nonneg _)

/- Claim theorems. -/

/-- Claim C6: a task that yields the bare integer `k` is re-enqueued exactly
as if it had yielded `SleepMs(k)` — the dispatch outcomes coincide for every
`k`, remaining trace, args and loop state, and both equal a normal-priority
`call_later_ms_(k, cb, args)` re-enqueue. -/
theorem c6_int_yield_equiv_sleep_ms (k : Int) (t : Int) (rest : List Step)
    (args : Args) (s : LoopState) :
    dispatch ⟨t, .coro (.intV k :: rest), args⟩ s =
      dispatch ⟨t, .coro (.sleepMs k :: rest), args⟩ s ∧
    dispatch ⟨t, .coro (.sleepMs k :: rest), args⟩ s =
      reenqueue s true k (.coro rest) args :=
  ⟨rfl, rfl⟩

/-- Claim C8: a yielded value that is no recognised directive — an
unrecognised `SysCall1` subclass, or any other unsupported value — makes the
dispatch fail fatally through the `assert False` arms, with the loop state
unchanged (the yielder is not re-enqueued), and `run_forever` surfaces the
failure instead of continuing. -/
theorem c8_unknown_directive_fatal (t : Int) (tail : List Step) (args : Args)
    (s : LoopState) :
    dispatch ⟨t, .coro (.unknownSys :: tail), args⟩ s = .fatal .unknownSyscall s ∧
    dispatch ⟨t, .coro (.unknownVal :: tail), args⟩ s = .fatal .unsupportedYield s ∧
    (run_forever envFalse 5
        { loop0 with q := { cap := 42, entries := [⟨0, .coro [.unknownSys], []⟩] } }).errVal
      = some .unknownSyscall ∧
    (run_forever envFalse 5
        { loop0 with q := { cap := 42, entries := [⟨0, .coro [.unknownVal], []⟩] } }).errVal
      = some .unsupportedYield :=
  ⟨rfl, rfl, rfl, rfl⟩

/-- Claim C3 (counterexample): a task whose resumption raises an uncaught
exception other than `StopIteration` does not leave the loop running — on a
loop whose only task raises, `run_forever` terminates with the propagated
exception instead of reporting and dropping the task. -/
theorem c3_uncaught_exception_tears_down_loop :
    (run_forever envFalse 10
        { loop0 with q := { cap := 42, entries := [⟨0, .coro [.raises], []⟩] } }).errVal
      = some .taskError ∧
    (run_forever envFalse 10
        { loop0 with q := { cap := 42, entries := [⟨0, .coro [.raises], []⟩] } }).stopVal
      = none :=
  ⟨rfl, rfl⟩

/-- Claim C3 (amended): only the `StopIteration` of normal completion is
caught — the completed task is silently dropped (not re-enqueued, no
logging) and the loop continues; any other exception raised by a resumption
propagates out of `run_forever`, tearing the loop down. -/
theorem c3_amended (t : Int) (tail : List Step) (args : Args)
    (s : LoopState) :
    dispatch ⟨t, .coro (.raises :: tail), args⟩ s = .fatal .taskError s ∧
    dispatch ⟨t, .coro [], args⟩ s = .cont s :=
  ⟨rfl, rfl⟩

/-- Claim C2 (code evaluated at the failing input): with `hpq` absent,
`_schedule_hp` assigns the flat 3-item list `[func, callback, args]` rather
than a table holding one `(func, callback, args)` slot; consequently a later
HPQ scan in the selection loop, and any later `_schedule_hp`, subscript the
stored bare function and die with `TypeError` instead of treating the slot's
first element as the predicate. -/
theorem c2_schedule_hp_flat_list_bug (f : Nat) (cb : Payload) (a : Args) :
    _schedule_hp none f cb a = .ok (some (.flat f cb a [])) ∧
    (∀ (env : Nat → Bool) (q lpq : Utimeq) (mo now : Int) (extra : List HpSlot),
      selectStep env ⟨q, lpq, mo, some (.flat f cb a extra), now⟩ =
        .fatal .typeError ⟨q, lpq, mo, some (.flat f cb a extra), now⟩) ∧
    (∀ (f' : Nat) (cb' : Payload) (a' : Args) (extra : List HpSlot),
      _schedule_hp (some (.flat f cb a extra)) f' cb' a' = .error .typeError) :=
  ⟨rfl, fun _ _ _ _ _ _ => rfl, fun _ _ _ _ => rfl⟩

/-- Claim C1 (counterexample): on the spec's own scenario — the wrapped task
yields `SleepMs(10)`, `SleepMs(20)`, then `StopLoop(42)` — `run_until_complete`
returns Python `None`, not `42`: its body invokes `run_forever()` without a
`return` statement. -/
theorem c1_run_until_complete_returns_none :
    (run_until_complete envFalse 50 loop0 chainCoro).retVal = some none ∧
    (run_until_complete envFalse 50 loop0 chainCoro).retVal ≠ some (some 42) := by
  refine ⟨rfl, ?_⟩
  decide

/-- Claim C1 (amended): on the wrapped scenario task, the `run_forever` call
made by `run_until_complete` does return `42` (the `StopLoop` argument) with
the clock advanced by the full 30 ms, but `run_until_complete` itself
discards that value and returns `None`. -/
theorem c1_amended_run_forever_returns_stoploop_value :
    call_soon loop0 (.coro (chainCoro ++ [.stopLoop 0])) [] =
      .ok { loop0 with
              q := { cap := 42, entries := [⟨0, .coro (chainCoro ++ [.stopLoop 0]), []⟩] } } ∧
    (run_forever envFalse 50
        { loop0 with
            q := { cap := 42, entries := [⟨0, .coro (chainCoro ++ [.stopLoop 0]), []⟩] } }).stopVal
      = some 42 ∧
    (run_forever envFalse 50
        { loop0 with
            q := { cap := 42, entries := [⟨0, .coro (chainCoro ++ [.stopLoop 0]), []⟩] } }).stoppedNow
      = some 30 ∧
    (run_until_complete envFalse 50 loop0 chainCoro).retVal = some none :=
  ⟨rfl, rfl, rfl, rfl⟩

/-- The capacity decode asserted by the claim: `qlen = value & 0xFFFF`,
`lpqlen = (value >> 16) & 0xFFFF` (spec §6, Constructor-argument
compatibility quirk); stated for comparison with `initLoop`, which follows
the source. -/
def specDecodeCaps (value : Nat) : Nat × Nat :=
  (value &&& 0xffff, (value >>> 16) &&& 0xffff)

/-- Claim C7 (counterexample): the source computes `lpqlen = len >> 16`
without masking, so at `value = 2^32` the constructor creates an LPQ of
capacity `65536` while the claim's decode `(value >> 16) & 0xFFFF` yields
`0`. -/
theorem c7_lpqlen_mask_counterexample :
    (initLoop (2 ^ 32) 0).lpq.cap = 65536 ∧
    (specDecodeCaps (2 ^ 32)).2 = 0 ∧ (65536 : Nat) ≠ 0 := by
  refine ⟨rfl, rfl, ?_⟩
  decide

/-- Claim C7 (amended): `qlen = value & 0xFFFF` holds for every value, and
for every `value < 2^32` — where `value >> 16` fits 16 bits — the
constructor's capacities agree with the claim's masked decode. -/
theorem c7_amended_caps_decode (v : Nat) (hv : v < 2 ^ 32) :
    (initLoop v 0).q.cap = (specDecodeCaps v).1 ∧
    (initLoop v 0).lpq.cap = (specDecodeCaps v).2 := by
  refine ⟨rfl, ?_⟩
  show v >>> 16 = (v >>> 16) &&& 0xffff
  have h2 : v >>> 16 < 2 ^ 16 := by
    rw [Nat.shiftRight_eq_div_pow]
    omega
  have e : (0xffff : Nat) = 2 ^ 16 - 1 := by norm_num
  rw [e, Nat.and_pow_two_sub_one_eq_mod]
  exact (Nat.mod_eq_of_lt h2).symm

/-- Witness for C7 (amended) at the packed default `42 + (42 << 16)`. -/
theorem c7_amended_caps_decode_witness :
    42 + (42 <<< 16) < 2 ^ 32 ∧
    (initLoop (42 + (42 <<< 16)) 0).q.cap = (specDecodeCaps (42 + (42 <<< 16))).1 ∧
    (initLoop (42 + (42 <<< 16)) 0).lpq.cap = (specDecodeCaps (42 + (42 <<< 16))).2 :=
  ⟨by decide, c7_amended_caps_decode (42 + (42 <<< 16)) (by decide)⟩

/-- Claim C9: every seconds input is converted by truncating
`int(secs * 1000)`; for non-negative `secs` this is `⌊secs * 1000⌋`, and the
`Sleep`/`After` directives and `call_later`/`call_after` all re-enqueue with
exactly that millisecond delay (equivalently, behave like their
`ms`-denominated counterparts at `⌊secs * 1000⌋`). -/
theorem c9_seconds_truncate_to_ms (secs : ℚ) (h : 0 ≤ secs) (t : Int)
    (rest : List Step) (args : Args) (s : LoopState) (cb : Payload) :
    pyInt (secs * 1000) = ⌊secs * 1000⌋ ∧
    dispatch ⟨t, .coro (.sleep secs :: rest), args⟩ s =
      dispatch ⟨t, .coro (.sleepMs ⌊secs * 1000⌋ :: rest), args⟩ s ∧
    dispatch ⟨t, .coro (.after secs :: rest), args⟩ s =
      dispatch ⟨t, .coro (.afterMs ⌊secs * 1000⌋ :: rest), args⟩ s ∧
    call_later s secs cb args = call_at_ s (ticks_add s.now ⌊secs * 1000⌋) cb args ∧
    call_after s secs cb args = call_after_ms_ s ⌊secs * 1000⌋ cb args := by
  have key : pyInt (secs * 1000) = ⌊secs * 1000⌋ :=
    pyInt_eq_floor _ (mul_nonneg h (by norm_num))
  refine ⟨key, ?_, ?_, ?_, ?_⟩
  · simp [dispatch, key]
  · simp [dispatch, key]
  · simp [call_later, key]
  · simp [call_after, call_after_ms_, key]

/-- Witness for C9 at `secs = 2` on the default loop. -/
theorem c9_seconds_truncate_to_ms_witness :
    0 ≤ (2 : ℚ) ∧
    (pyInt ((2 : ℚ) * 1000) = ⌊(2 : ℚ) * 1000⌋ ∧
     dispatch ⟨0, .coro (.sleep 2 :: []), []⟩ loop0 =
       dispatch ⟨0, .coro (.sleepMs ⌊(2 : ℚ) * 1000⌋ :: []), []⟩ loop0 ∧
     dispatch ⟨0, .coro (.after 2 :: []), []⟩ loop0 =
       dispatch ⟨0, .coro (.afterMs ⌊(2 : ℚ) * 1000⌋ :: []), []⟩ loop0 ∧
     call_later loop0 2 (.fn 1) [] =
       call_at_ loop0 (ticks_add loop0.now ⌊(2 : ℚ) * 1000⌋) (.fn 1) [] ∧
     call_after loop0 2 (.fn 1) [] = call_after_ms_ loop0 ⌊(2 : ℚ) * 1000⌋ (.fn 1) []) :=
  ⟨zero_le_two, c9_seconds_truncate_to_ms 2 zero_le_two 0 [] [] loop0 (.fn 1)⟩

/-- Claim C10: the default constructor argument `42` decodes to an LPQ
capacity of `42 >> 16 = 0`, so on `EventLoop()` every `call_after` /
`call_after_ms_` fails with `QueueFull`, whatever the clock, delay, callback
or args; `get_event_loop()`'s packed default `42 + (42 << 16)` gives LPQ
capacity `42`, on which low-priority scheduling succeeds. -/
theorem c10_default_loop_lpq_unusable :
    (initLoop 42 0).lpq.cap = 0 ∧
    (∀ (now d : Int) (cb : Payload) (args : Args),
      call_after_ms_ { initLoop 42 0 with now := now } d cb args = .error .queueFull) ∧
    (∀ (now : Int) (secs : ℚ) (cb : Payload) (args : Args),
      call_after { initLoop 42 0 with now := now } secs cb args = .error .queueFull) ∧
    (get_event_loop 42 42 0).lpq.cap = 42 ∧
    call_after_ms_ (get_event_loop 42 42 0) 5 (.fn 1) [] =
      .ok { get_event_loop 42 42 0 with
              lpq := { cap := 42, entries := [⟨5, .fn 1, []⟩] } } :=
  ⟨rfl, fun _ _ _ _ => rfl, fun _ _ _ _ => rfl, rfl, rfl⟩

/-- No HPQ predicate fires at this tick: the table is absent, or the scan
over its slots finds no non-empty slot with a truthy predicate. -/
def hpNoFire (env : Nat → Bool) (s : LoopState) : Prop :=
  s.hpq = none ∨ ∃ slots, s.hpq = some (.table slots) ∧ hpScan env slots = none

/-- A loop state with a due NQ entry, an overdue LPQ entry
(`overdue = 61 > max_overdue_ms = 50`), and an HPQ slot whose predicate `1`
fires under `envOne`. -/
def sMix : LoopState :=
  { q := { cap := 4, entries := [⟨100, .fn 2, []⟩] }
    lpq := { cap := 4, entries := [⟨39, .fn 3, []⟩] }
    max_overdue := 50
    hpq := some (.table [⟨1, .fn 7, []⟩])
    now := 100 }

/-- Claim C4: with NQ non-empty and a well-formed HPQ table, entry selection
follows the strict precedence HPQ fired predicate, then LPQ-overdue
override, then NQ due, then LPQ due: a firing HPQ slot's payload is picked
with both queues untouched; otherwise selection falls to the queue checks,
which pop the overdue LPQ head first, else the due NQ head, else the due LPQ
head; and the entry the selection loop picks at this tick is what
`run_forever`'s body dispatches. -/
theorem c4_selection_precedence (env : Nat → Bool) (s : LoopState)
    (slots : List HpSlot)
    (hq : s.q.entries.isEmpty = false)
    (hhp : s.hpq = some (.table slots)) :
    (∀ slots' cb a, hpScan env slots = some (slots', cb, a) →
      selectStep env s = .picked ⟨0, cb, a⟩ { s with hpq := some (.table slots') }) ∧
    (∀ (n : Nat) cur s', selectStep env s = .picked cur s' →
      loopBody env (n + 1) s = dispatch cur s') ∧
    (hpScan env slots = none → selectStep env s = selectQs s) ∧
    (∀ e l', 0 < s.max_overdue → s.lpq.pop = some (e, l') →
      s.max_overdue < -ticks_diff e.t s.now →
      selectQs s = .picked ⟨e.t, e.cb, e.args⟩ { s with lpq := l' }) ∧
    (∀ e q', lpOverduePick s = none → s.q.pop = some (e, q') →
      ticks_diff e.t s.now ≤ 0 →
      selectQs s = .picked ⟨e.t, e.cb, e.args⟩ { s with q := q' }) ∧
    (∀ en q' el l', lpOverduePick s = none → s.q.pop = some (en, q') →
      0 < ticks_diff en.t s.now → s.lpq.pop = some (el, l') →
      ticks_diff el.t s.now ≤ 0 →
      selectQs s = .picked ⟨el.t, el.cb, el.args⟩ { s with lpq := l' }) := by
  refine ⟨?_, ?_, ?_, ?_, ?_, ?_⟩
  · intro slots' cb a hsc
    simp [selectStep, hhp, hsc]
  · intro n cur s' hsel
    simp [loopBody, hq, selectLoop, hsel]
  · intro hsc
    simp [selectStep, hhp, hsc]
  · intro e l' hmax hpop hover
    have hpk := Utimeq.peektime_of_pop hpop
    simp [selectQs, lpOverduePick, hmax, hpk, hpop, hover]
  · intro e q' hov hpop hdue
    have hpk := Utimeq.peektime_of_pop hpop
    simp [selectQs, hov, hpk, hpop, hdue]
  · intro en q' el l' hov hpopn hlate hpopl hdue
    have hpkn := Utimeq.peektime_of_pop hpopn
    have hpkl := Utimeq.peektime_of_pop hpopl
    have hnot : ¬ ticks_diff en.t s.now ≤ 0 := not_le.mpr hlate
    simp [selectQs, hov, hpkn, hpopn, hpkl, hpopl, hdue, hnot]

/-- Witness for C4 on `sMix`: the firing HPQ slot's payload is picked and
the slot is cleared, with both queues untouched. -/
theorem c4_selection_precedence_witness :
    sMix.q.entries.isEmpty = false ∧
    sMix.hpq = some (.table [⟨1, .fn 7, []⟩]) ∧
    hpScan envOne [⟨1, .fn 7, []⟩] = some ([⟨0, .fn 7, []⟩], .fn 7, []) ∧
    selectStep envOne sMix =
      .picked ⟨0, .fn 7, []⟩ { sMix with hpq := some (.table [⟨0, .fn 7, []⟩]) } :=
  ⟨rfl, rfl, rfl,
    (c4_selection_precedence envOne sMix [⟨1, .fn 7, []⟩] rfl rfl).1 _ _ _ rfl⟩

/-- Claim C5 (counterexample): at `sMix` every condition of the claim holds
— `max_overdue_ms = 50 > 0`, the LPQ head (callable `3`, scheduled at `39`)
is `61 > 50` ms overdue, and NQ even has a due entry — yet the next entry
selected for dispatch is the HPQ payload (callable `7`), not the LPQ head,
because the HPQ scan precedes the overdue check. -/
theorem c5_overdue_head_not_dispatched :
    0 < sMix.max_overdue ∧
    sMix.lpq.peektime = some 39 ∧
    sMix.max_overdue < -ticks_diff 39 sMix.now ∧
    sMix.q.peektime = some 100 ∧ ticks_diff 100 sMix.now ≤ 0 ∧
    (sMix.lpq.pop).map (fun p => p.1.cb.fnId) = some (some 3) ∧
    selectStep envOne sMix =
      .picked ⟨0, .fn 7, []⟩ { sMix with hpq := some (.table [⟨0, .fn 7, []⟩]) } ∧
    (7 : Nat) ≠ 3 := by
  refine ⟨by decide, rfl, by decide, rfl, by decide, rfl, rfl, by decide⟩

/-- Claim C5 (amended): whenever `max_overdue_ms > 0`, the LPQ head is more
than `max_overdue_ms` overdue, and additionally no HPQ predicate fires at
the tick, the selection picks that LPQ head — even if NQ has due entries. -/
theorem c5_amended_overdue_override (env : Nat → Bool) (s : LoopState)
    (e : TQEntry) (l' : Utimeq)
    (hnofire : hpNoFire env s)
    (hmax : 0 < s.max_overdue)
    (hpop : s.lpq.pop = some (e, l'))
    (hover : s.max_overdue < -ticks_diff e.t s.now) :
    selectStep env s = .picked ⟨e.t, e.cb, e.args⟩ { s with lpq := l' } := by
  have hpk := Utimeq.peektime_of_pop hpop
  have hqs : selectQs s = .picked ⟨e.t, e.cb, e.args⟩ { s with lpq := l' } := by
    simp [selectQs, lpOverduePick, hmax, hpk, hpop, hover]
  rcases hnofire with hn | ⟨slots, hhp, hsc⟩
  · simp [selectStep, hn, hqs]
  · simp [selectStep, hhp, hsc, hqs]

/-- Witness for C5 (amended) on `sMix` with its HPQ removed: the overdue
LPQ head is picked ahead of the due NQ entry. -/
theorem c5_amended_overdue_override_witness :
    hpNoFire envOne { sMix with hpq := none } ∧
    0 < sMix.max_overdue ∧
    ({ sMix with hpq := none } : LoopState).lpq.pop =
      some (⟨39, .fn 3, []⟩, { cap := 4, entries := [] }) ∧
    sMix.max_overdue < -ticks_diff 39 sMix.now ∧
    selectStep envOne { sMix with hpq := none } =
      .picked ⟨39, .fn 3, []⟩
        { sMix with hpq := none, lpq := { cap := 4, entries := [] } } :=
  ⟨Or.inl rfl, by decide, rfl, by decide,
    c5_amended_overdue_override envOne { sMix with hpq := none } ⟨39, .fn 3, []⟩
      { cap := 4, entries := [] } (Or.inl rfl) (by decide) rfl (by decide)⟩

end UAsyncio
